import Mathlib

/-!
Verification development for the rivulex messaging runtime.

The definitions below are a shallow embedding of the TypeScript sources:
the Retrier (src/lib/utils/retrier.ts), the Formatter codec
(src/lib/utils/formatter.ts), the Processor dispatch path
(src/lib/processor/processor.ts), the Publisher batch append path
(src/lib/core/publisher.ts), setDefaultMinMax (src/lib/utils/utils.ts),
the Trimmer configuration and jitter (src/lib/core/trimmer.ts) and the
Subscriber stop path (src/lib/core/subscriber.ts).  Asynchronous
operations against Redis are modelled by explicit effect traces and
Except-valued results; the wall clock and Math.random are passed in as
explicit inputs.
-/

namespace Rivulex

/-! ## Retrier (src/lib/utils/retrier.ts, constants src/lib/constants.ts)

The source loop is:
for (attempt = 0; attempt <= retries; attempt++) {
  try { return await asyncFunc() }
  catch (e) { if (attempt === retries) throw e; await sleep(delay) } }

The behaviour of the wrapped operation is an input: op i is the outcome
of its i-th invocation.  The model returns the ordered list of steps
performed (invocations and sleeps) together with the final result. -/

inductive RetryStep where
  | invoke (i : Nat)
  | sleepMs (ms : Nat)
deriving DecidableEq, Repr

/-- Loop body of Retrier.retry: budget is the number of retries still
allowed after the current attempt i; at budget 0 the test
attempt === retries is true and the error propagates. -/
def retryAux {E A : Type} (delay : Nat) (op : Nat → Except E A) :
    Nat → Nat → List RetryStep × Except E A
  | 0, i => ([RetryStep.invoke i], op i)
  | b + 1, i =>
    match op i with
    | Except.ok a => ([RetryStep.invoke i], Except.ok a)
    | Except.error _ =>
      let rest := retryAux delay op b (i + 1)
      (RetryStep.invoke i :: RetryStep.sleepMs delay :: rest.1, rest.2)

/-- Retrier.retry from src/lib/utils/retrier.ts: attempts 0 .. retries. -/
def Retrier.retry {E A : Type} (retries delay : Nat) (op : Nat → Except E A) :
    List RetryStep × Except E A :=
  retryAux delay op retries 0

/-- Constant RETRY from src/lib/constants.ts. -/
def RETRY : Nat := 3

/-- Constant RETRY_BACKOFF_TIME from src/lib/constants.ts (milliseconds). -/
def RETRY_BACKOFF_TIME : Nat := 50

def RetryStep.isInvoke : RetryStep → Bool
  | RetryStep.invoke _ => true
  | _ => false

/-- Number of invocations of the wrapped operation recorded in a trace. -/
def invocations (t : List RetryStep) : Nat :=
  (t.filter RetryStep.isInvoke).length

/-- Index of the attempt at which the retry loop stops when started at
attempt i with b retries left: the first index at which op succeeds, or
the last attempt in the budget when every invocation fails. -/
def stopIndex {E A : Type} (op : Nat → Except E A) : Nat → Nat → Nat
  | 0, i => i
  | b + 1, i =>
    match op i with
    | Except.ok _ => i
    | Except.error _ => stopIndex op b (i + 1)

/-- Trace of a retry run that performs attempts i, i+1, ..., i+n with the
fixed delay slept between consecutive attempts. -/
def retryTrace (delay i : Nat) : Nat → List RetryStep
  | 0 => [RetryStep.invoke i]
  | n + 1 => RetryStep.invoke i :: RetryStep.sleepMs delay :: retryTrace delay (i + 1) n

/-! ## Data model (src/lib/types.ts)

Headers carry the reserved keys of BaseHeaders; keys that the code may
find absent on the JS object are Option-valued.  The user-defined keys
are gathered in the custom field. -/

structure HeadersM (H : Type) where
  timestamp : Option String
  group : Option String
  rejected : Option Bool
  rejectedGroup : Option String
  rejectedTimestamp : Option String
  custom : H
deriving DecidableEq, Repr

/-- In-memory event (BaseEvent of src/lib/types.ts). -/
structure BaseEventM (P H : Type) where
  id : String
  stream : String
  action : String
  attempt : Nat
  headers : HeadersM H
  payload : P
deriving DecidableEq, Repr

/-- NewEvent of src/lib/types.ts: an event built for publication, before
the log assigns an id. -/
structure NewEventM (P H : Type) where
  action : String
  stream : String
  payload : P
  headers : HeadersM H
deriving DecidableEq, Repr

/-! ## Formatter (src/lib/utils/formatter.ts)

JSON.stringify and JSON.parse are external runtime functions; the model
takes them as parameters (stringifyP / parseP for the payload type,
stringifyH / parseH for the headers type).  A wire field is a string,
except that the failed consumer injects the numeric attempt counter at
index 7 of a claimed record (src/lib/consumers/failed.consumer.ts), and
the SentEvent type of src/lib/types.ts types that slot as number. -/

inductive WireVal where
  | s (v : String)
  | n (v : Nat)
deriving DecidableEq, Repr

/-- Formatter.getNewEvent: spread the given headers and override the
timestamp (new Date().toISOString(), passed in as now) and group. -/
def Formatter.getNewEvent {P H : Type} (now : String) (streamName group action : String)
    (payload : P) (headers : HeadersM H) : NewEventM P H :=
  { action := action
    stream := streamName
    payload := payload
    headers := { headers with timestamp := some now, group := some group } }

/-- Formatter.getSentEvent: the six-element field array handed to XADD. -/
def Formatter.getSentEvent {P H : Type} (stringifyP : P → String)
    (stringifyH : HeadersM H → String) (ne : NewEventM P H) : List WireVal :=
  [WireVal.s "action", WireVal.s ne.action,
   WireVal.s "payload", WireVal.s (stringifyP ne.payload),
   WireVal.s "headers", WireVal.s (stringifyH ne.headers)]

/-- Formatter.parseRawEvent: destructure
[id, [, action, , payload, , headers, , attempt = 0]]; a missing
attempt pair (6-field record) defaults to 0; JSON.parse failure on the
payload or headers yields none (the event is skipped by the caller). -/
def Formatter.parseRawEvent {P H : Type} (parseP : String → Option P)
    (parseH : String → Option (HeadersM H)) (rawId : String)
    (fields : List WireVal) (stream : String) : Option (BaseEventM P H) :=
  match fields.get? 1, fields.get? 3, fields.get? 5 with
  | some (WireVal.s action), some (WireVal.s payloadStr), some (WireVal.s headersStr) =>
    match parseP payloadStr, parseH headersStr with
    | some payload, some headers =>
      some { id := rawId
             action := action
             payload := payload
             headers := headers
             attempt := (match fields.get? 7 with
                         | some (WireVal.n a) => a
                         | _ => 0)
             stream := stream }
    | _, _ => none
  | _, _, _ => none

/-! ## Processor (src/lib/processor/processor.ts)

Redis calls and hook emissions are recorded in an ordered effect trace.
A call guarded by the Retrier is modelled as one logical operation whose
eventual success after the retry budget is given by the environment
(the Retrier itself is modelled in full above).  Exceptions travel as
Except values; the try/catch blocks of the source appear as the
catchAll combinator. -/

inductive ProcAction where
  | xack (stream group id : String)
  | deadLetterPipeline (stream group id : String)
  | invokeHandler (action id : String)
  | hookConfirmed (id : String)
  | hookRejected (id : String)
  | hookFailed (id : String)
  | hookTimeout (id : String)
deriving DecidableEq, Repr

inductive ProcErr where
  | redisErr
  | handlerErr
  | poolTimeout
deriving DecidableEq, Repr

/-- Eventual outcome of the retried Redis operations, per event id. -/
structure RedisEnv where
  xackOk : String → Bool
  pipelineOk : String → Bool

/-- Sequencing of two traced computations: the second runs only when the
first did not throw. -/
def andThenP (x y : List ProcAction × Except ProcErr Unit) :
    List ProcAction × Except ProcErr Unit :=
  match x with
  | (t, Except.ok _) => (t ++ y.1, y.2)
  | (t, Except.error e) => (t, Except.error e)

/-- A try/catch block whose catch branch only logs: the error is absorbed. -/
def catchAllP (x : List ProcAction × Except ProcErr Unit) :
    List ProcAction × Except ProcErr Unit :=
  (x.1, Except.ok ())

/-- One retried Redis operation: the action is issued; the environment
says whether it eventually succeeds. -/
def opResult (ok : Bool) (a : ProcAction) : List ProcAction × Except ProcErr Unit :=
  ([a], if ok then Except.ok () else Except.error ProcErr.redisErr)

/-- Processor.skipEvent: retried xack, catch only logs. -/
def skipEvent {P H : Type} (env : RedisEnv) (stream group : String)
    (e : BaseEventM P H) : List ProcAction × Except ProcErr Unit :=
  catchAllP (opResult (env.xackOk e.id) (ProcAction.xack stream group e.id))

/-- Processor.ackEvent: the one-shot ack capability bound to
(stream, group, id): retried xack, then the CONFIRMED hook; catch only
logs. -/
def ackEvent {P H : Type} (env : RedisEnv) (stream group : String)
    (e : BaseEventM P H) : List ProcAction × Except ProcErr Unit :=
  catchAllP (andThenP (opResult (env.xackOk e.id) (ProcAction.xack stream group e.id))
    ([ProcAction.hookConfirmed e.id], Except.ok ()))

/-- Processor.rejectEvent: one pipeline batching the dead-letter XADD of
the re-encoded event (headers extended with rejected, rejectedGroup,
rejectedTimestamp) with the XACK of the source record, run under the
Retrier; the REJECTED hook fires only when the pipeline succeeds; catch
only logs. -/
def rejectEvent {P H : Type} (env : RedisEnv) (stream group : String)
    (e : BaseEventM P H) : List ProcAction × Except ProcErr Unit :=
  catchAllP (andThenP (opResult (env.pipelineOk e.id) (ProcAction.deadLetterPipeline stream group e.id))
    ([ProcAction.hookRejected e.id], Except.ok ()))

/-- Behaviour of a user handler for one delivery: it may call the ack
capability, and it either returns normally or throws. -/
inductive HandlerBehavior where
  | ret (callsAck : Bool)
  | raise (callsAck : Bool)
deriving DecidableEq, Repr

/-- Whether the handler behaviour calls the ack capability. -/
def HandlerBehavior.callsAck : HandlerBehavior → Bool
  | HandlerBehavior.ret c => c
  | HandlerBehavior.raise c => c

/-- Invocation of the handler on the event carrying the ack capability. -/
def runHandler {P H : Type} (env : RedisEnv) (stream group : String)
    (e : BaseEventM P H) (h : HandlerBehavior) : List ProcAction × Except ProcErr Unit :=
  match h with
  | HandlerBehavior.ret ca =>
    (ProcAction.invokeHandler e.action e.id ::
      (if ca then (ackEvent env stream group e).1 else []), Except.ok ())
  | HandlerBehavior.raise ca =>
    (ProcAction.invokeHandler e.action e.id ::
      (if ca then (ackEvent env stream group e).1 else []), Except.error ProcErr.handlerErr)

/-- Processor.hasToBeRejected: attempt >= this.retries. -/
def hasToBeRejected (retries attempt : Nat) : Bool :=
  decide (attempt ≥ retries)

/-- Guard of the first branch of Processor.processUnit:
headers.rejected && headers.rejectedGroup !== this.group. -/
def isForAnotherGroup {H : Type} (group : String) (h : HeadersM H) : Bool :=
  h.rejected == some true && h.rejectedGroup != some group

/-- Processor.processUnit, lines 350-386 of src/lib/processor/processor.ts. -/
def processUnit {P H : Type} (env : RedisEnv) (group : String) (retries : Nat)
    (stream : String) (handlers : String → Option HandlerBehavior)
    (e : BaseEventM P H) : List ProcAction × Except ProcErr Unit :=
  if isForAnotherGroup group e.headers then
    skipEvent env stream group e
  else
    match handlers e.action with
    | none => skipEvent env stream group e
    | some h =>
      if hasToBeRejected retries e.attempt then
        rejectEvent env stream group e
      else
        match runHandler env stream group e h with
        | (t, Except.ok _) => (t, Except.ok ())
        | (t, Except.error _) =>
          if hasToBeRejected retries (e.attempt + 1) then
            andThenP (t ++ [ProcAction.hookFailed e.id], Except.ok ())
              (rejectEvent env stream group e)
          else
            (t ++ [ProcAction.hookFailed e.id], Except.ok ())

/-- Outcome of one event within one process cycle, as observed from the
effect trace. -/
inductive CycleOutcome where
  | confirmed
  | skipped
  | rejected
  | failed
  | timedOut
  | completedNoAck
deriving DecidableEq, Repr

def ProcAction.isInvoke : ProcAction → Bool
  | ProcAction.invokeHandler _ _ => true
  | _ => false

def ProcAction.isDeadLetter : ProcAction → Bool
  | ProcAction.deadLetterPipeline _ _ _ => true
  | _ => false

def ProcAction.isXack : ProcAction → Bool
  | ProcAction.xack _ _ _ => true
  | _ => false

def ProcAction.isHookFailed : ProcAction → Bool
  | ProcAction.hookFailed _ => true
  | _ => false

def ProcAction.isHookConfirmed : ProcAction → Bool
  | ProcAction.hookConfirmed _ => true
  | _ => false

/-- Observation of a completed unit trace. -/
def classifyTrace (t : List ProcAction) : CycleOutcome :=
  if t.any ProcAction.isHookFailed then CycleOutcome.failed
  else if t.any ProcAction.isDeadLetter then CycleOutcome.rejected
  else if t.any ProcAction.isInvoke then
    (if t.any ProcAction.isHookConfirmed then CycleOutcome.confirmed
     else CycleOutcome.completedNoAck)
  else CycleOutcome.skipped

/-- One pooled task of Processor.process: PromisePool.withTaskTimeout
aborts awaiting the task after processTimeout (the environment says per
event id whether the deadline elapses; the handler itself keeps running
in the background, so the unit trace still happens). -/
def runTask {P H : Type} (env : RedisEnv) (timesOut : String → Bool)
    (group : String) (retries : Nat) (stream : String)
    (handlers : String → Option HandlerBehavior) (e : BaseEventM P H) :
    List ProcAction × Except ProcErr Unit :=
  let r := processUnit env group retries stream handlers e
  if timesOut e.id then (r.1, Except.error ProcErr.poolTimeout) else r

/-- One event of Processor.process, with the handleError callback of the
PromisePool: a PromisePoolError (task timeout) emits the TIMEOUT hook,
any other escaped error emits the FAILED hook; handleError never
rethrows. -/
def Processor.processEvent {P H : Type} (env : RedisEnv) (timesOut : String → Bool)
    (group : String) (retries : Nat) (stream : String)
    (handlers : String → Option HandlerBehavior) (e : BaseEventM P H) :
    List ProcAction × CycleOutcome :=
  match runTask env timesOut group retries stream handlers e with
  | (t, Except.ok _) => (t, classifyTrace t)
  | (t, Except.error ProcErr.poolTimeout) =>
    (t ++ [ProcAction.hookTimeout e.id], CycleOutcome.timedOut)
  | (t, Except.error _) =>
    (t ++ [ProcAction.hookFailed e.id], CycleOutcome.failed)

/-- Processor.process, lines 334-347 of src/lib/processor/processor.ts:
dispatch the batch through the PromisePool and return once every event
has been driven through the per-unit procedure; errors are consumed by
handleError, so the result is never an exception. -/
def Processor.process {P H : Type} (env : RedisEnv) (timesOut : String → Bool)
    (group : String) (retries : Nat) (stream : String)
    (handlers : String → Option HandlerBehavior) (events : List (BaseEventM P H)) :
    List ProcAction × Except ProcErr (List CycleOutcome) :=
  let rs := events.map (Processor.processEvent env timesOut group retries stream handlers)
  (rs.flatMap Prod.fst, Except.ok (rs.map Prod.snd))

/-! ## Publisher (src/lib/core/publisher.ts)

publishBatch queues one XADD per entry on a pipeline, executes it, and
reports per entry.  The pipeline execution result comes from Redis and
is an input: a thrown error, a null result, or one (error?, id?) row per
queued command.  Hooks are traced with the entry index they fire for. -/

inductive PubAction where
  | pipelineXadd (stream : String)
  | hookPublished (i : Nat) (id : String)
  | hookFailedPub (i : Nat)
deriving DecidableEq, Repr

/-- One row of the pipeline.exec result: [error, id]. -/
def ExecRow : Type := Option String × Option String

instance : DecidableEq ExecRow := by
  unfold ExecRow
  infer_instance

/-- Per-entry result tuple of publishBatch:
ok, id?, error? (source: id, error, ok: error ? false : true). -/
structure PubResult where
  ok : Bool
  id : Option String
  error : Option String
deriving DecidableEq, Repr

/-- Row to result tuple, as in the final results.map of publishBatch. -/
def mkPubResult (row : ExecRow) : PubResult :=
  { ok := row.1.isNone, id := row.2, error := row.1 }

/-- Hook fired for row i of the pipeline results: the FAILED hook when
the row carries an error, else the PUBLISHED hook with the row's id. -/
def entryHook (i : Nat) (row : ExecRow) : PubAction :=
  match row.1 with
  | some _ => PubAction.hookFailedPub i
  | none => PubAction.hookPublished i (row.2.getD "")

/-- Hooks fired by the results.forEach of publishBatch, one per row. -/
def batchHooks : Nat → List ExecRow → List PubAction
  | _, [] => []
  | i, row :: rest => entryHook i row :: batchHooks (i + 1) rest

/-- Hooks fired by the catch branch of publishBatch: FAILED for every
entry of the batch. -/
def allFailedHooks : Nat → Nat → List PubAction
  | _, 0 => []
  | i, n + 1 => PubAction.hookFailedPub i :: allFailedHooks (i + 1) n

/-- Entry submitted to publishBatch; the stream override is optional. -/
structure BatchEntry (P H : Type) where
  stream : Option String
  action : String
  payload : P
  headers : HeadersM H
deriving DecidableEq, Repr

/-- Publisher.publishBatch, lines 153-188 of src/lib/core/publisher.ts.
The execResult input is what pipeline.exec() yields: Except.error for a
wholesale pipeline failure (rethrown after emitting FAILED per entry),
ok none for a null result (early return of an empty result list), and
ok (some rows) for per-command rows. -/
def Publisher.publishBatch {P H : Type} (defaultStream group now : String)
    (execResult : Except String (Option (List ExecRow)))
    (entries : List (BatchEntry P H)) :
    List PubAction × Except String (List PubResult) :=
  if entries.isEmpty then ([], Except.ok [])
  else
    let xadds := entries.map (fun en => PubAction.pipelineXadd (en.stream.getD defaultStream))
    match execResult with
    | Except.error e => (xadds ++ allFailedHooks 0 entries.length, Except.error e)
    | Except.ok none => (xadds, Except.ok [])
    | Except.ok (some rows) =>
      (xadds ++ batchHooks 0 rows, Except.ok (rows.map mkPubResult))

/-! ## setDefaultMinMax (src/lib/utils/utils.ts) and Trimmer configuration
(src/lib/core/trimmer.ts) -/

/-- Default of the omitted maxVal parameter of setDefaultMinMax. -/
def SET_DEFAULT_MAX_VAL : Int := 1000000

/-- setDefaultMinMax, lines 25-34 of src/lib/utils/utils.ts: an undefined
value falls back to the default, then the result is clamped into
[minVal, maxVal]. -/
def setDefaultMinMax (value : Option Int) (defaultVal minVal maxVal : Int) : Int :=
  let r0 := match value with
            | some v => v
            | none => defaultVal
  let r1 := if r0 < minVal then minVal else r0
  if r1 > maxVal then maxVal else r1

/-- Field defIntervalTime of the Trimmer: 172_800_000 ms (48 h). -/
def Trimmer.defIntervalTime : Int := 172800000

/-- Field minIntervalTime of the Trimmer: 10_000 ms (10 s). -/
def Trimmer.minIntervalTime : Int := 10000

/-- Field defRetentionPeriod of the Trimmer: 172_800_000 ms (48 h). -/
def Trimmer.defRetentionPeriod : Int := 172800000

/-- Field minRetentionPeriod of the Trimmer: 10_000 ms (10 s). -/
def Trimmer.minRetentionPeriod : Int := 10000

/-- Effective intervalTime computed by the Trimmer constructor: the
source calls setDefaultMinMax with three arguments, so the TS default
maxVal = 1_000_000 applies. -/
def Trimmer.intervalTime (cfg : Option Int) : Int :=
  setDefaultMinMax cfg Trimmer.defIntervalTime Trimmer.minIntervalTime SET_DEFAULT_MAX_VAL

/-- Effective retentionPeriod computed by the Trimmer constructor; the
omitted maxVal again defaults to 1_000_000. -/
def Trimmer.retentionPeriod (cfg : Option Int) : Int :=
  setDefaultMinMax cfg Trimmer.defRetentionPeriod Trimmer.minRetentionPeriod SET_DEFAULT_MAX_VAL

/-! ## Trimmer scheduling (src/lib/core/trimmer.ts)

Math.random() is an input r with 0 <= r < 1, modelled as a rational. -/

/-- Trimmer.getRandomInterval:
(Math.floor(Math.random() * 60) - 30) * 1000 added to intervalTime. -/
def Trimmer.getRandomInterval (intervalTime : Int) (r : ℚ) : Int :=
  intervalTime + (⌊r * 60⌋ - 30) * 1000

/-- Trimmer.getInitialDelay: Math.floor(Math.random() * 10 + 1) * 1000. -/
def Trimmer.getInitialDelay (r : ℚ) : Int :=
  ⌊r * 10 + 1⌋ * 1000

/-! ## Subscriber.stop (src/lib/core/subscriber.ts, lines 752-765)

stop returns new Promise(async (resolve) => { if (this.enabled) {
await Promise.allSettled([liveConsumer.stop(), failedConsumer.stop()]);
if (this.trimmer) { this.trimmer.stop(); this.trimmer = null; }
this.redis.quit(resolve); this.enabled = false } }).
The resolve callback is invoked only by redis.quit inside the enabled
branch. -/

structure SubscriberState where
  enabled : Bool
  trimmerPresent : Bool
  redisOpen : Bool
deriving DecidableEq, Repr

structure StopResult where
  state : SubscriberState
  stoppedLiveConsumer : Bool
  stoppedFailedConsumer : Bool
  stoppedTrimmer : Bool
  quitCalled : Bool
  resolves : Bool
deriving DecidableEq, Repr

/-- Subscriber.stop as a state transition together with the effects it
performs and whether the returned promise ever resolves. -/
def Subscriber.stop (s : SubscriberState) : StopResult :=
  if s.enabled then
    { state := { enabled := false, trimmerPresent := false, redisOpen := false }
      stoppedLiveConsumer := true
      stoppedFailedConsumer := true
      stoppedTrimmer := s.trimmerPresent
      quitCalled := true
      resolves := true }
  else
    { state := s
      stoppedLiveConsumer := false
      stoppedFailedConsumer := false
      stoppedTrimmer := false
      quitCalled := false
      resolves := false }

/-! ## Claim-side definitions

These definitions transcribe the words of the specification claims; the
theorems compare them with the embedding of the source. -/

/-- Branch taken by the per-unit decision procedure. -/
inductive UnitDecision where
  | skipAck
  | rejectEvt
  | invokeEvt
deriving DecidableEq, Repr

/-- Decision procedure exactly as claim C1 words it: skip for another
group's reject, skip for a missing handler, reject at the retry budget,
otherwise invoke. -/
def processUnitDecisionSpec {H : Type} (group : String) (retries : Nat)
    (hasHandler : Bool) (hdrs : HeadersM H) (attempt : Nat) : UnitDecision :=
  if hdrs.rejected = some true ∧ hdrs.rejectedGroup ≠ some group then
    UnitDecision.skipAck
  else if ¬hasHandler then
    UnitDecision.skipAck
  else if attempt ≥ retries then
    UnitDecision.rejectEvt
  else
    UnitDecision.invokeEvt

/-- Observation of the branch a unit trace went through. -/
def observeDecision (t : List ProcAction) : UnitDecision :=
  if t.any ProcAction.isInvoke then UnitDecision.invokeEvt
  else if t.any ProcAction.isDeadLetter then UnitDecision.rejectEvt
  else UnitDecision.skipAck

/-- Terminal cycle outcomes enumerated by claim C3: confirmed, skipped,
rejected, failed, or timed out. -/
def claimedTerminalOutcomes : List CycleOutcome :=
  [CycleOutcome.confirmed, CycleOutcome.skipped, CycleOutcome.rejected,
   CycleOutcome.failed, CycleOutcome.timedOut]

/-! ## Concrete fixtures used by counterexamples and witnesses -/

/-- Environment in which every retried Redis operation succeeds. -/
def envAllOk : RedisEnv :=
  { xackOk := fun _ => true, pipelineOk := fun _ => true }

/-- No task reaches the processTimeout deadline. -/
def noTimeouts : String → Bool := fun _ => false

/-- Plain headers with no reserved key set. -/
def plainHeaders : HeadersM Unit :=
  { timestamp := none, group := none, rejected := none
    rejectedGroup := none, rejectedTimestamp := none, custom := () }

/-- A concrete event on the users stream. -/
def sampleEvent (hdrs : HeadersM Unit) (attempt : Nat) : BaseEventM Unit Unit :=
  { id := "1700000000000-0"
    stream := "users"
    action := "u_created"
    attempt := attempt
    headers := hdrs
    payload := () }

/-- Handler table holding one handler for u_created with the given
behaviour and nothing else. -/
def oneHandler (b : HandlerBehavior) : String → Option HandlerBehavior :=
  fun a => if a = "u_created" then some b else none

/-- Headers after the publisher injected the timestamp and group. -/
def c4headersExt : HeadersM Unit :=
  { plainHeaders with timestamp := some "2026-10-12T00:00:00.000Z", group := some "g" }

/-- Concrete stand-in for JSON.stringify on the headers type. -/
def c4stringifyH : HeadersM Unit → String := fun _ => "headers-json"

/-- Concrete stand-in for JSON.parse on the headers type, inverting
c4stringifyH at the value the round-trip witness uses. -/
def c4parseH : String → Option (HeadersM Unit) := fun _ => some c4headersExt

/-- Concrete stand-in for JSON.stringify on the payload type. -/
def c4stringifyP : Nat → String := Nat.repr

/-- Concrete stand-in for JSON.parse on the payload type, inverting
c4stringifyP at the value the round-trip witness uses. -/
def c4parseP : String → Option Nat := fun _ => some 42

/-- Two batch entries, the second overriding the stream. -/
def c5entries : List (BatchEntry Unit Unit) :=
  [{ stream := none, action := "a1", payload := (), headers := plainHeaders },
   { stream := some "other", action := "a2", payload := (), headers := plainHeaders }]

/-- Pipeline rows: the first append succeeded with an id, the second
returned an error. -/
def c5rows : List ExecRow :=
  [((none : Option String), some "1-1"), (some "boom", (none : Option String))]

/-- Operation that throws on every invocation. -/
def c8opFail : Nat → Except Unit Nat := fun _ => Except.error ()

/-- Operation that throws twice and then succeeds. -/
def c8opMixed : Nat → Except Unit Nat :=
  fun i => if i < 2 then Except.error () else Except.ok i

/-! # Theorems -/

theorem stopIndex_ge {E A : Type} (op : Nat → Except E A) :
    ∀ b i, i ≤ stopIndex op b i := by
  intro b
  induction b with
  | zero => intro i; simp [stopIndex]
  | succ b ih =>
    intro i
    cases h : op i with
    | ok a => simp [stopIndex, h]
    | error e =>
      have := ih (i + 1)
      simp only [stopIndex, h]
      omega

theorem stopIndex_le {E A : Type} (op : Nat → Except E A) :
    ∀ b i, stopIndex op b i ≤ i + b := by
  intro b
  induction b with
  | zero => intro i; simp [stopIndex]
  | succ b ih =>
    intro i
    cases h : op i with
    | ok a => simp [stopIndex, h]
    | error e =>
      have := ih (i + 1)
      simp only [stopIndex, h]
      omega

theorem retryAux_spec {E A : Type} (d : Nat) (op : Nat → Except E A) :
    ∀ b i, retryAux d op b i
      = (retryTrace d i (stopIndex op b i - i), op (stopIndex op b i)) := by
  intro b
  induction b with
  | zero => intro i; simp [retryAux, stopIndex, retryTrace]
  | succ b ih =>
    intro i
    cases h : op i with
    | ok a => simp [retryAux, stopIndex, retryTrace, h]
    | error e =>
      have hge := stopIndex_ge op b (i + 1)
      have hsub : stopIndex op b (i + 1) - i = (stopIndex op b (i + 1) - (i + 1)) + 1 := by
        omega
      simp only [retryAux, stopIndex, h, ih (i + 1), hsub, retryTrace]

theorem invocations_retryTrace (d i : Nat) :
    ∀ n, invocations (retryTrace d i n) = n + 1 := by
  intro n
  induction n generalizing i with
  | zero => simp [retryTrace, invocations, RetryStep.isInvoke]
  | succ n ih =>
    simp [retryTrace, invocations, RetryStep.isInvoke] at ih ⊢
    exact ih (i + 1)

theorem stopIndex_errors {E A : Type} (op : Nat → Except E A) :
    ∀ b i j, i ≤ j → j < stopIndex op b i → ∃ e, op j = Except.error e := by
  intro b
  induction b with
  | zero =>
    intro i j hij hj
    simp [stopIndex] at hj
    omega
  | succ b ih =>
    intro i j hij hj
    cases h : op i with
    | ok a =>
      simp only [stopIndex, h] at hj
      omega
    | error e =>
      simp only [stopIndex, h] at hj
      rcases Nat.eq_or_lt_of_le hij with heq | hlt
      · exact ⟨e, heq ▸ h⟩
      · exact ih (i + 1) j hlt hj

theorem stopIndex_all_fail {E A : Type} (op : Nat → Except E A) :
    ∀ b i, (∀ j, i ≤ j → j ≤ i + b → ∃ e, op j = Except.error e) →
      stopIndex op b i = i + b := by
  intro b
  induction b with
  | zero => intro i _; simp [stopIndex]
  | succ b ih =>
    intro i hall
    rcases hall i (le_refl i) (by omega) with ⟨e, he⟩
    have := ih (i + 1) (fun j h1 h2 => hall j (by omega) (by omega))
    simp only [stopIndex, he]
    omega

theorem stopIndex_first_ok {E A : Type} (op : Nat → Except E A) :
    ∀ b i, stopIndex op b i < i + b → ∃ a, op (stopIndex op b i) = Except.ok a := by
  intro b
  induction b with
  | zero => intro i h; simp [stopIndex] at h
  | succ b ih =>
    intro i h
    cases hop : op i with
    | ok a =>
      simp only [stopIndex, hop]
      exact ⟨a, rfl⟩
    | error e =>
      simp only [stopIndex, hop] at h ⊢
      rcases Nat.lt_or_ge (stopIndex op b (i + 1)) (i + 1 + b) with hlt | hge
      · exact ih (i + 1) hlt
      · have := stopIndex_le op b (i + 1)
        omega

/-- Claim C8 (corrected): the Retrier on the acknowledgement and
dead-letter paths is configured with RETRY = 3 retries and a fixed
RETRY_BACKOFF_TIME = 50 ms delay.  Its run performs the attempts
0, 1, ..., stopIndex (sleeping the fixed delay between consecutive
attempts, as the trace shows), invoking the operation at most
RETRY + 1 = 4 times; every invocation before the stopping one threw; if
every invocation in the budget throws, the loop stops at the last
attempt and the error of that last invocation is propagated; a
successful invocation before the last index is the first success, its
result is returned and no further attempts are made. -/
theorem c8_retrier_amended {E A : Type} (op : Nat → Except E A) :
    Retrier.retry RETRY RETRY_BACKOFF_TIME op
      = (retryTrace RETRY_BACKOFF_TIME 0 (stopIndex op RETRY 0), op (stopIndex op RETRY 0))
    ∧ invocations (Retrier.retry RETRY RETRY_BACKOFF_TIME op).1 = stopIndex op RETRY 0 + 1
    ∧ invocations (Retrier.retry RETRY RETRY_BACKOFF_TIME op).1 ≤ RETRY + 1
    ∧ (∀ j, j < stopIndex op RETRY 0 → ∃ e, op j = Except.error e)
    ∧ ((∀ j, j ≤ RETRY → ∃ e, op j = Except.error e) → stopIndex op RETRY 0 = RETRY)
    ∧ (stopIndex op RETRY 0 < RETRY → ∃ a, op (stopIndex op RETRY 0) = Except.ok a) := by
  have hspec := retryAux_spec RETRY_BACKOFF_TIME op RETRY 0
  have hle := stopIndex_le op RETRY 0
  have heq : Retrier.retry RETRY RETRY_BACKOFF_TIME op
      = (retryTrace RETRY_BACKOFF_TIME 0 (stopIndex op RETRY 0), op (stopIndex op RETRY 0)) := by
    unfold Retrier.retry
    rw [hspec]
    simp
  refine ⟨heq, ?_, ?_, ?_, ?_, ?_⟩
  · rw [heq]
    simpa using invocations_retryTrace RETRY_BACKOFF_TIME 0 (stopIndex op RETRY 0)
  · rw [heq]
    have := invocations_retryTrace RETRY_BACKOFF_TIME 0 (stopIndex op RETRY 0)
    simp only at this ⊢
    rw [this]
    simp only [RETRY] at hle ⊢
    omega
  · intro j hj
    exact stopIndex_errors op RETRY 0 j (Nat.zero_le j) hj
  · intro hall
    have := stopIndex_all_fail op RETRY 0 (fun j h1 h2 => hall j (by simpa using h2))
    simpa using this
  · intro hlt
    exact stopIndex_first_ok op RETRY 0 (by simpa using hlt)

/-- Witness for c8_retrier_amended at two concrete operations: the
always-failing operation stops at attempt RETRY = 3 (so it is invoked
4 times and the last error is propagated), and the full trace equation
holds there. -/
theorem c8_retrier_amended_witness :
    stopIndex c8opFail RETRY 0 = RETRY
    ∧ Retrier.retry RETRY RETRY_BACKOFF_TIME c8opFail
      = (retryTrace RETRY_BACKOFF_TIME 0 (stopIndex c8opFail RETRY 0),
         c8opFail (stopIndex c8opFail RETRY 0)) := by
  have h := c8_retrier_amended c8opFail
  exact ⟨h.2.2.2.2.1 (fun j _ => ⟨(), rfl⟩), h.1⟩

/-- Claim C8 as stated is false on the code: with RETRY = 3 the
always-failing operation is invoked RETRY + 1 = 4 times, exceeding the
claimed maximum of 3; the source loop runs attempt = 0 .. retries
inclusive. -/
theorem c8_retrier_counterexample :
    invocations (Retrier.retry RETRY RETRY_BACKOFF_TIME c8opFail).1 = RETRY + 1
    ∧ RETRY = 3 := by
  decide

/-- Claims C6: the Trimmer constructor passes only three arguments to
setDefaultMinMax, so the TS default maxVal = 1_000_000 silently clamps
both the 48 h default (172_800_000 ms, contradicting the source's own
defIntervalTime = 172_800_000 constant and its 48h comment) and any
configured value above 1_000_000 ms; the minimum clamp to 10 s works as
documented. -/
theorem c6_trimmer_defaults_bug :
    Trimmer.intervalTime none = 1000000
    ∧ Trimmer.retentionPeriod none = 1000000
    ∧ Trimmer.intervalTime none < Trimmer.defIntervalTime
    ∧ Trimmer.retentionPeriod none < Trimmer.defRetentionPeriod
    ∧ Trimmer.intervalTime (some 172800000) = 1000000
    ∧ Trimmer.intervalTime (some 5000) = 10000
    ∧ Trimmer.intervalTime (some 20000) = 20000 := by
  decide

/-- Claim C7: the first stop on a listening subscriber signals both
consumers, stops the configured trimmer, closes the Redis connection
and resolves; but a second stop after the completed first one performs
no further effect and its promise never resolves, because resolve is
only invoked inside the enabled branch.  The second call hanging
contradicts the stated idempotency. -/
theorem c7_subscriber_stop_bug :
    (Subscriber.stop { enabled := true, trimmerPresent := true, redisOpen := true }).stoppedLiveConsumer = true
    ∧ (Subscriber.stop { enabled := true, trimmerPresent := true, redisOpen := true }).stoppedFailedConsumer = true
    ∧ (Subscriber.stop { enabled := true, trimmerPresent := true, redisOpen := true }).stoppedTrimmer = true
    ∧ (Subscriber.stop { enabled := true, trimmerPresent := true, redisOpen := true }).quitCalled = true
    ∧ (Subscriber.stop { enabled := true, trimmerPresent := true, redisOpen := true }).resolves = true
    ∧ (Subscriber.stop (Subscriber.stop { enabled := true, trimmerPresent := true, redisOpen := true }).state).resolves = false
    ∧ (Subscriber.stop (Subscriber.stop { enabled := true, trimmerPresent := true, redisOpen := true }).state).state
      = (Subscriber.stop { enabled := true, trimmerPresent := true, redisOpen := true }).state := by
  decide

theorem skipEvent_trace {P H : Type} (env : RedisEnv) (stream group : String)
    (e : BaseEventM P H) :
    skipEvent env stream group e = ([ProcAction.xack stream group e.id], Except.ok ()) := by
  simp [skipEvent, catchAllP, opResult]

theorem ackEvent_trace {P H : Type} (env : RedisEnv) (stream group : String)
    (e : BaseEventM P H) :
    ackEvent env stream group e
      = (ProcAction.xack stream group e.id ::
          (if env.xackOk e.id then [ProcAction.hookConfirmed e.id] else []),
         Except.ok ()) := by
  cases h : env.xackOk e.id <;>
    simp [ackEvent, catchAllP, andThenP, opResult, h]

theorem rejectEvent_trace {P H : Type} (env : RedisEnv) (stream group : String)
    (e : BaseEventM P H) :
    rejectEvent env stream group e
      = (ProcAction.deadLetterPipeline stream group e.id ::
          (if env.pipelineOk e.id then [ProcAction.hookRejected e.id] else []),
         Except.ok ()) := by
  cases h : env.pipelineOk e.id <;>
    simp [rejectEvent, catchAllP, andThenP, opResult, h]

theorem isForAnotherGroup_true_iff {H : Type} (group : String) (h : HeadersM H) :
    isForAnotherGroup group h = true
      ↔ (h.rejected = some true ∧ h.rejectedGroup ≠ some group) := by
  simp [isForAnotherGroup]

/-- Claim C1 (confirmed): the per-unit decision of Processor.processUnit
follows exactly the claimed order, transcribed in
processUnitDecisionSpec: another group's reject is acknowledged without
any handler call, a missing handler is acknowledged without any handler
call, an event at the retry budget is rejected (dead-letter append plus
ack in one batched pipeline) without any handler call, and otherwise
the registered handler is invoked first, on the event carrying the ack
capability bound to (stream, group, id). -/
theorem c1_process_unit_decision_order {P H : Type} (env : RedisEnv) (group : String)
    (retries : Nat) (stream : String) (handlers : String → Option HandlerBehavior)
    (e : BaseEventM P H) :
    observeDecision (processUnit env group retries stream handlers e).1
      = processUnitDecisionSpec group retries (handlers e.action).isSome e.headers e.attempt
    ∧ (processUnitDecisionSpec group retries (handlers e.action).isSome e.headers e.attempt
        = UnitDecision.skipAck →
       (processUnit env group retries stream handlers e).1
         = [ProcAction.xack stream group e.id])
    ∧ (processUnitDecisionSpec group retries (handlers e.action).isSome e.headers e.attempt
        = UnitDecision.rejectEvt →
       (processUnit env group retries stream handlers e).1.any ProcAction.isDeadLetter = true
       ∧ (processUnit env group retries stream handlers e).1.any ProcAction.isInvoke = false)
    ∧ (processUnitDecisionSpec group retries (handlers e.action).isSome e.headers e.attempt
        = UnitDecision.invokeEvt →
       (processUnit env group retries stream handlers e).1.head?
         = some (ProcAction.invokeHandler e.action e.id)
       ∧ ∀ hb, handlers e.action = some hb → hb.callsAck = true →
           ProcAction.xack stream group e.id
             ∈ (processUnit env group retries stream handlers e).1) := by
  cases hskip : isForAnotherGroup group e.headers with
  | true =>
    have hcond := (isForAnotherGroup_true_iff group e.headers).mp hskip
    have hspec : processUnitDecisionSpec group retries (handlers e.action).isSome e.headers e.attempt
        = UnitDecision.skipAck := by
      simp [processUnitDecisionSpec, hcond.1, hcond.2]
    have htr : processUnit env group retries stream handlers e
        = ([ProcAction.xack stream group e.id], Except.ok ()) := by
      simp [processUnit, hskip, skipEvent_trace]
    refine ⟨?_, fun _ => by rw [htr], ?_, ?_⟩
    · rw [htr, hspec]
      simp [observeDecision, ProcAction.isInvoke, ProcAction.isDeadLetter]
    · rw [hspec]; intro hc; cases hc
    · rw [hspec]; intro hc; cases hc
  | false =>
    have hnotcond : ¬ (e.headers.rejected = some true ∧ e.headers.rejectedGroup ≠ some group) := by
      rw [← isForAnotherGroup_true_iff]
      simp [hskip]
    cases hh : handlers e.action with
    | none =>
      have hspec : processUnitDecisionSpec group retries (none : Option HandlerBehavior).isSome e.headers e.attempt
          = UnitDecision.skipAck := by
        simp [processUnitDecisionSpec, hnotcond]
      have htr : processUnit env group retries stream handlers e
          = ([ProcAction.xack stream group e.id], Except.ok ()) := by
        simp [processUnit, hskip, hh, skipEvent_trace]
      refine ⟨?_, fun _ => by rw [htr], ?_, ?_⟩
      · rw [htr, hspec]
        simp [observeDecision, ProcAction.isInvoke, ProcAction.isDeadLetter]
      · rw [hspec]; intro hc; cases hc
      · rw [hspec]; intro hc; cases hc
    | some hb =>
      cases hrej : hasToBeRejected retries e.attempt with
      | true =>
        have hge : e.attempt ≥ retries := by
          simpa [hasToBeRejected] using hrej
        have hspec : processUnitDecisionSpec group retries (some hb).isSome e.headers e.attempt
            = UnitDecision.rejectEvt := by
          simp [processUnitDecisionSpec, hnotcond, hge]
        have htr : processUnit env group retries stream handlers e
            = (ProcAction.deadLetterPipeline stream group e.id ::
                (if env.pipelineOk e.id then [ProcAction.hookRejected e.id] else []),
               Except.ok ()) := by
          simp [processUnit, hskip, hh, hrej, rejectEvent_trace]
        refine ⟨?_, ?_, fun _ => ?_, ?_⟩
        · rw [htr, hspec]
          cases h : env.pipelineOk e.id <;>
            simp [observeDecision, ProcAction.isInvoke, ProcAction.isDeadLetter, h]
        · rw [hspec]; intro hc; cases hc
        · rw [htr]
          cases h : env.pipelineOk e.id <;>
            simp [ProcAction.isInvoke, ProcAction.isDeadLetter, h]
        · rw [hspec]; intro hc; cases hc
      | false =>
        have hlt : e.attempt < retries := by
          simpa [hasToBeRejected] using hrej
        have hspec : processUnitDecisionSpec group retries (some hb).isSome e.headers e.attempt
            = UnitDecision.invokeEvt := by
          simp [processUnitDecisionSpec, hnotcond]
          omega
        refine ⟨?_, ?_, ?_, fun _ => ⟨?_, ?_⟩⟩
        · rw [hspec]
          cases hb with
          | ret ca =>
            cases ca <;>
              simp [processUnit, hskip, hh, hrej, runHandler, ackEvent_trace,
                observeDecision, ProcAction.isInvoke]
          | raise ca =>
            cases hrej1 : hasToBeRejected retries (e.attempt + 1) <;> cases ca <;>
              simp [processUnit, hskip, hh, hrej, hrej1, runHandler, ackEvent_trace,
                rejectEvent_trace, andThenP, observeDecision, ProcAction.isInvoke]
        · rw [hspec]; intro hc; cases hc
        · rw [hspec]; intro hc; cases hc
        · cases hb with
          | ret ca =>
            cases ca <;>
              simp [processUnit, hskip, hh, hrej, runHandler, ackEvent_trace]
          | raise ca =>
            cases hrej1 : hasToBeRejected retries (e.attempt + 1) <;> cases ca <;>
              simp [processUnit, hskip, hh, hrej, hrej1, runHandler, ackEvent_trace,
                rejectEvent_trace, andThenP]
        · intro hb1 hhb1 hca
          cases hhb1
          cases hb with
          | ret ca =>
            cases ca with
            | true =>
              simp [processUnit, hskip, hh, hrej, runHandler, ackEvent_trace]
            | false => cases hca
          | raise ca =>
            cases ca with
            | true =>
              cases hrej1 : hasToBeRejected retries (e.attempt + 1) <;>
                simp [processUnit, hskip, hh, hrej, hrej1, runHandler, ackEvent_trace,
                  rejectEvent_trace, andThenP]
            | false => cases hca

/-- Witness for c1_process_unit_decision_order: a record rejected by
another group, dispatched with a registered handler, is acknowledged
without any handler call. -/
theorem c1_process_unit_decision_order_witness :
    (processUnit envAllOk "g" 3 "users" (oneHandler (HandlerBehavior.ret true))
        (sampleEvent { plainHeaders with rejected := some true, rejectedGroup := some "other" } 0)).1
      = [ProcAction.xack "users" "g" "1700000000000-0"] := by
  have h := c1_process_unit_decision_order envAllOk "g" 3 "users"
    (oneHandler (HandlerBehavior.ret true))
    (sampleEvent { plainHeaders with rejected := some true, rejectedGroup := some "other" } 0)
  exact h.2.1 (by decide)

/-- Claim C2 (confirmed): when the handler throws on an event that
reached it (not skipped, not rejected up front), the FAILED hook is
emitted, and the dead-letter pipeline (append to dead_letter plus ack
of the source record) is issued if and only if attempt + 1 >= retries;
when attempt + 1 < retries the whole unit trace is just the handler
invocation followed by the FAILED hook, so no ack and no reject is
issued and the event is left pending for reclaim. -/
theorem c2_handler_failure_reject_iff {P H : Type} (env : RedisEnv) (group : String)
    (retries : Nat) (stream : String) (handlers : String → Option HandlerBehavior)
    (e : BaseEventM P H)
    (hskip : isForAnotherGroup group e.headers = false)
    (hh : handlers e.action = some (HandlerBehavior.raise false))
    (hlt : e.attempt < retries) :
    ProcAction.hookFailed e.id ∈ (processUnit env group retries stream handlers e).1
    ∧ ((processUnit env group retries stream handlers e).1.any ProcAction.isDeadLetter = true
        ↔ retries ≤ e.attempt + 1)
    ∧ (retries ≤ e.attempt + 1 →
        ProcAction.deadLetterPipeline stream group e.id
          ∈ (processUnit env group retries stream handlers e).1)
    ∧ (e.attempt + 1 < retries →
        (processUnit env group retries stream handlers e).1
          = [ProcAction.invokeHandler e.action e.id, ProcAction.hookFailed e.id]) := by
  have hrej : hasToBeRejected retries e.attempt = false := by
    simp [hasToBeRejected]
    omega
  cases hrej1 : hasToBeRejected retries (e.attempt + 1) with
  | true =>
    have hge1 : retries ≤ e.attempt + 1 := by
      simpa [hasToBeRejected] using hrej1
    have htr : (processUnit env group retries stream handlers e).1
        = ProcAction.invokeHandler e.action e.id :: ProcAction.hookFailed e.id ::
            ProcAction.deadLetterPipeline stream group e.id ::
            (if env.pipelineOk e.id then [ProcAction.hookRejected e.id] else []) := by
      simp [processUnit, hskip, hh, hrej, hrej1, runHandler, rejectEvent_trace, andThenP]
    rw [htr]
    cases h : env.pipelineOk e.id <;>
      simp [h, ProcAction.isDeadLetter, hge1]
  | false =>
    have hlt1 : e.attempt + 1 < retries := by
      simp [hasToBeRejected] at hrej1
      omega
    have htr : (processUnit env group retries stream handlers e).1
        = [ProcAction.invokeHandler e.action e.id, ProcAction.hookFailed e.id] := by
      simp [processUnit, hskip, hh, hrej, hrej1, runHandler]
    rw [htr]
    simp [ProcAction.isDeadLetter]
    omega

/-- Witness for c2_handler_failure_reject_iff: with retries = 3 and a
first-delivery event whose handler throws, the cycle leaves exactly the
handler invocation and the FAILED hook, with no ack and no dead-letter
write. -/
theorem c2_handler_failure_reject_iff_witness :
    (processUnit envAllOk "g" 3 "users" (oneHandler (HandlerBehavior.raise false))
        (sampleEvent plainHeaders 0)).1
      = [ProcAction.invokeHandler "u_created" "1700000000000-0",
         ProcAction.hookFailed "1700000000000-0"] := by
  have h := c2_handler_failure_reject_iff envAllOk "g" 3 "users"
    (oneHandler (HandlerBehavior.raise false)) (sampleEvent plainHeaders 0)
    (by decide) (by decide) (by decide)
  exact h.2.2.2 (by decide)

/-- Claim C10 (confirmed): an event whose headers carry rejected = true
with rejectedGroup equal to the consuming group does not take the skip
branch: with a registered handler it is dispatched to the handler when
attempt < retries, and re-rejected without any handler call when
attempt >= retries. -/
theorem c10_own_rejected_events_redispatched {P H : Type} (env : RedisEnv) (group : String)
    (retries : Nat) (stream : String) (handlers : String → Option HandlerBehavior)
    (e : BaseEventM P H) (hb : HandlerBehavior)
    (hr : e.headers.rejected = some true)
    (hg : e.headers.rejectedGroup = some group)
    (hh : handlers e.action = some hb) :
    isForAnotherGroup group e.headers = false
    ∧ (e.attempt < retries →
        (processUnit env group retries stream handlers e).1.head?
          = some (ProcAction.invokeHandler e.action e.id))
    ∧ (retries ≤ e.attempt →
        (processUnit env group retries stream handlers e).1.any ProcAction.isDeadLetter = true
        ∧ (processUnit env group retries stream handlers e).1.any ProcAction.isInvoke = false) := by
  have hskip : isForAnotherGroup group e.headers = false := by
    simp [isForAnotherGroup, hr, hg]
  refine ⟨hskip, ?_, ?_⟩
  · intro hlt
    have hrej : hasToBeRejected retries e.attempt = false := by
      simp [hasToBeRejected]
      omega
    cases hb with
    | ret ca =>
      cases ca <;>
        simp [processUnit, hskip, hh, hrej, runHandler, ackEvent_trace]
    | raise ca =>
      cases hrej1 : hasToBeRejected retries (e.attempt + 1) <;> cases ca <;>
        simp [processUnit, hskip, hh, hrej, hrej1, runHandler, ackEvent_trace,
          rejectEvent_trace, andThenP]
  · intro hge
    have hrej : hasToBeRejected retries e.attempt = true := by
      simp [hasToBeRejected]
      omega
    cases h : env.pipelineOk e.id <;>
      simp [processUnit, hskip, hh, hrej, rejectEvent_trace, h,
        ProcAction.isDeadLetter, ProcAction.isInvoke]

/-- Witness for c10_own_rejected_events_redispatched: a dead-letter
consumer of its own group re-invokes the handler on its previously
rejected event with attempt 0 < retries = 3. -/
theorem c10_own_rejected_events_redispatched_witness :
    (processUnit envAllOk "g" 3 "dead_letter" (oneHandler (HandlerBehavior.ret true))
        (sampleEvent { plainHeaders with rejected := some true, rejectedGroup := some "g" } 0)).1.head?
      = some (ProcAction.invokeHandler "u_created" "1700000000000-0") := by
  have h := c10_own_rejected_events_redispatched envAllOk "g" 3 "dead_letter"
    (oneHandler (HandlerBehavior.ret true))
    (sampleEvent { plainHeaders with rejected := some true, rejectedGroup := some "g" } 0)
    (HandlerBehavior.ret true) (by decide) (by decide) (by decide)
  exact h.2.1 (by decide)

/-- Claim C3 as stated is false on the code at a concrete input: a
handler that returns normally without calling ack leaves its event in
none of the five outcomes the claim enumerates (confirmed, skipped,
rejected, failed, timed out); the event simply stays pending, while
process still returns normally. -/
theorem c3_process_counterexample :
    (Processor.process envAllOk noTimeouts "g" 3 "users"
        (oneHandler (HandlerBehavior.ret false)) [sampleEvent plainHeaders 0]).2
      = Except.ok [CycleOutcome.completedNoAck]
    ∧ claimedTerminalOutcomes.contains CycleOutcome.completedNoAck = false := by
  constructor
  · rfl
  · decide

/-- Claim C3 (corrected): Processor.process returns normally for every
stream, batch, handler table, Redis failure pattern and timeout
pattern: its result is never an exception but the list of per-event
cycle outcomes, one for each event of the batch, each of which is
confirmed, skipped, rejected, failed, timed out, or the handler
completed without acknowledging and the event stays pending. -/
theorem c3_process_never_throws {P H : Type} (env : RedisEnv) (timesOut : String → Bool)
    (group : String) (retries : Nat) (stream : String)
    (handlers : String → Option HandlerBehavior) (events : List (BaseEventM P H)) :
    (Processor.process env timesOut group retries stream handlers events).2
      = Except.ok (events.map
          (fun e => (Processor.processEvent env timesOut group retries stream handlers e).2))
    ∧ (events.map
          (fun e => (Processor.processEvent env timesOut group retries stream handlers e).2)).length
        = events.length
    ∧ ∀ o ∈ events.map
          (fun e => (Processor.processEvent env timesOut group retries stream handlers e).2),
        o ∈ [CycleOutcome.confirmed, CycleOutcome.skipped, CycleOutcome.rejected,
             CycleOutcome.failed, CycleOutcome.timedOut, CycleOutcome.completedNoAck] := by
  refine ⟨?_, by simp, ?_⟩
  · simp [Processor.process]
  · intro o _
    cases o <;> simp

/-- Witness for c3_process_never_throws: a batch holding one event whose
handler throws and one event already past the retry budget completes
with the outcomes failed and rejected and no exception. -/
theorem c3_process_never_throws_witness :
    (Processor.process envAllOk noTimeouts "g" 3 "users"
        (oneHandler (HandlerBehavior.raise false))
        [sampleEvent plainHeaders 0, sampleEvent plainHeaders 5]).2
      = Except.ok [CycleOutcome.failed, CycleOutcome.rejected] := by
  have h := c3_process_never_throws envAllOk noTimeouts "g" 3 "users"
    (oneHandler (HandlerBehavior.raise false))
    [sampleEvent plainHeaders 0, sampleEvent plainHeaders 5]
  rw [h.1]
  rfl

/-- Claim C4 (confirmed): encoding an event (getNewEvent then
getSentEvent) yields a six-field record with no attempt pair, and
decoding it with parseRawEvent recovers the action and the payload and
returns the original headers extended with the injected timestamp and
group, with attempt defaulting to 0; JSON.stringify and JSON.parse are
external, so the statement assumes they invert each other at the two
serialised values. -/
theorem c4_codec_round_trip {P H : Type}
    (stringifyP : P → String) (parseP : String → Option P)
    (stringifyH : HeadersM H → String) (parseH : String → Option (HeadersM H))
    (now streamName group action : String) (payload : P) (headers : HeadersM H)
    (newId newStream : String)
    (hp : parseP (stringifyP payload) = some payload)
    (hh : parseH (stringifyH { headers with timestamp := some now, group := some group })
        = some { headers with timestamp := some now, group := some group }) :
    (Formatter.getSentEvent stringifyP stringifyH
        (Formatter.getNewEvent now streamName group action payload headers)).length = 6
    ∧ Formatter.parseRawEvent parseP parseH newId
        (Formatter.getSentEvent stringifyP stringifyH
          (Formatter.getNewEvent now streamName group action payload headers)) newStream
      = some { id := newId
               stream := newStream
               action := action
               attempt := 0
               headers := { headers with timestamp := some now, group := some group }
               payload := payload } := by
  constructor
  · rfl
  · simp [Formatter.getNewEvent, Formatter.getSentEvent, Formatter.parseRawEvent, hp, hh]

/-- Witness for c4_codec_round_trip with a numeric payload and concrete
codecs standing in for JSON.stringify / JSON.parse. -/
theorem c4_codec_round_trip_witness :
    Formatter.parseRawEvent c4parseP c4parseH "1700000000000-1"
        (Formatter.getSentEvent c4stringifyP c4stringifyH
          (Formatter.getNewEvent "2026-10-12T00:00:00.000Z" "users" "g" "u_created"
            42 plainHeaders)) "users"
      = some { id := "1700000000000-1"
               stream := "users"
               action := "u_created"
               attempt := 0
               headers := c4headersExt
               payload := 42 } := by
  have h := c4_codec_round_trip c4stringifyP c4parseP c4stringifyH c4parseH
    "2026-10-12T00:00:00.000Z" "users" "g" "u_created" 42 plainHeaders
    "1700000000000-1" "users" rfl rfl
  exact h.2

theorem mem_allFailedHooks (j : Nat) : ∀ n s, s ≤ j → j < s + n →
    PubAction.hookFailedPub j ∈ allFailedHooks s n := by
  intro n
  induction n with
  | zero => intro s h1 h2; omega
  | succ n ih =>
    intro s h1 h2
    simp only [allFailedHooks]
    rcases Nat.eq_or_lt_of_le h1 with heq | hlt
    · subst heq
      exact List.mem_cons_self _ _
    · exact List.mem_cons_of_mem _ (ih (s + 1) hlt (by omega))

theorem mem_batchHooks (x : PubAction) : ∀ (rows : List ExecRow) (s : Nat),
    x ∈ batchHooks s rows
      ↔ ∃ k row, rows.get? k = some row ∧ x = entryHook (s + k) row := by
  intro rows
  induction rows with
  | nil => intro s; simp [batchHooks]
  | cons r rest ih =>
    intro s
    simp only [batchHooks, List.mem_cons, ih (s + 1)]
    constructor
    · rintro (hx | ⟨k, row, hget, hx⟩)
      · exact ⟨0, r, rfl, by simpa using hx⟩
      · refine ⟨k + 1, row, by simpa using hget, ?_⟩
        have harith : s + 1 + k = s + (k + 1) := by omega
        rw [harith] at hx
        exact hx
    · rintro ⟨k, row, hget, hx⟩
      cases k with
      | zero =>
        left
        simp only [List.get?] at hget
        cases hget
        simpa using hx
      | succ k =>
        right
        refine ⟨k, row, by simpa using hget, ?_⟩
        have harith : s + (k + 1) = s + 1 + k := by omega
        rw [harith] at hx
        exact hx

theorem entryHook_eq_failed_iff (i j : Nat) (row : ExecRow) :
    entryHook i row = PubAction.hookFailedPub j ↔ (i = j ∧ row.1.isSome = true) := by
  rcases row with ⟨err, id⟩
  cases err <;> simp [entryHook]

theorem entryHook_eq_published_iff (i j : Nat) (id : String) (row : ExecRow) :
    entryHook i row = PubAction.hookPublished j id
      ↔ (i = j ∧ row.1 = none ∧ row.2.getD "" = id) := by
  rcases row with ⟨err, rid⟩
  cases err <;> simp [entryHook, and_assoc]

theorem not_hook_mem_xadds {P H : Type} (defaultStream : String)
    (entries : List (BatchEntry P H)) (i : Nat) :
    PubAction.hookFailedPub i
        ∉ entries.map (fun en => PubAction.pipelineXadd (en.stream.getD defaultStream))
    ∧ ∀ id, PubAction.hookPublished i id
        ∉ entries.map (fun en => PubAction.pipelineXadd (en.stream.getD defaultStream)) := by
  constructor
  · intro hmem
    rcases List.mem_map.mp hmem with ⟨en, _, hcontra⟩
    cases hcontra
  · intro id hmem
    rcases List.mem_map.mp hmem with ⟨en, _, hcontra⟩
    cases hcontra

/-- Claim C5 (confirmed): publishBatch reports per entry.  When the
pipeline execution itself throws, the FAILED hook fires once for every
entry index and the error is re-raised; when the pipeline succeeds with
one row per queued command, the result carries one (ok, id?, error?)
tuple per row with ok = false exactly on the rows whose append returned
an error, the FAILED hook fires exactly at those indices and the
PUBLISHED hook exactly at the others. -/
theorem c5_publish_batch_report {P H : Type} (defaultStream group now : String)
    (execResult : Except String (Option (List ExecRow)))
    (entries : List (BatchEntry P H)) (hne : entries ≠ []) :
    (∀ err, execResult = Except.error err →
        (Publisher.publishBatch defaultStream group now execResult entries).2
          = Except.error err
        ∧ ∀ i, i < entries.length →
            PubAction.hookFailedPub i
              ∈ (Publisher.publishBatch defaultStream group now execResult entries).1)
    ∧ (∀ rows, execResult = Except.ok (some rows) → rows.length = entries.length →
        (Publisher.publishBatch defaultStream group now execResult entries).2
          = Except.ok (rows.map mkPubResult)
        ∧ (rows.map mkPubResult).length = entries.length
        ∧ ∀ i row, rows.get? i = some row →
            (row.1.isSome = true →
              PubAction.hookFailedPub i
                ∈ (Publisher.publishBatch defaultStream group now execResult entries).1
              ∧ ∀ id, PubAction.hookPublished i id
                  ∉ (Publisher.publishBatch defaultStream group now execResult entries).1)
            ∧ (row.1 = none →
              PubAction.hookPublished i (row.2.getD "")
                ∈ (Publisher.publishBatch defaultStream group now execResult entries).1
              ∧ PubAction.hookFailedPub i
                  ∉ (Publisher.publishBatch defaultStream group now execResult entries).1)) := by
  have hne2 : entries.isEmpty = false := by
    cases entries with
    | nil => cases hne rfl
    | cons a l => rfl
  constructor
  · intro err heq
    subst heq
    constructor
    · simp [Publisher.publishBatch, hne2]
    · intro i hi
      simp only [Publisher.publishBatch, hne2, Bool.false_eq_true, if_false, List.mem_append]
      right
      exact mem_allFailedHooks i entries.length 0 (Nat.zero_le i) (by omega)
  · intro rows heq hlen
    subst heq
    refine ⟨by simp [Publisher.publishBatch, hne2], by simp [hlen], ?_⟩
    intro i row hget
    constructor
    · intro hsome
      constructor
      · simp only [Publisher.publishBatch, hne2, Bool.false_eq_true, if_false, List.mem_append]
        right
        exact (mem_batchHooks _ rows 0).mpr
          ⟨i, row, hget, by rw [(entryHook_eq_failed_iff (0 + i) i row).mpr ⟨by omega, hsome⟩]⟩
      · intro id hmem
        simp only [Publisher.publishBatch, hne2, Bool.false_eq_true, if_false, List.mem_append] at hmem
        rcases hmem with hmem | hmem
        · exact (not_hook_mem_xadds defaultStream entries i).2 id hmem
        · rcases (mem_batchHooks _ rows 0).mp hmem with ⟨k, row1, hget1, hx⟩
          rcases (entryHook_eq_published_iff (0 + k) i id row1).mp hx.symm with ⟨hk, hnone, _⟩
          have hk2 : k = i := by omega
          subst hk2
          rw [hget] at hget1
          cases hget1
          rw [hnone] at hsome
          cases hsome
    · intro hnone
      constructor
      · simp only [Publisher.publishBatch, hne2, Bool.false_eq_true, if_false, List.mem_append]
        right
        exact (mem_batchHooks _ rows 0).mpr
          ⟨i, row, hget,
           by rw [(entryHook_eq_published_iff (0 + i) i (row.2.getD "") row).mpr ⟨by omega, hnone, rfl⟩]⟩
      · intro hmem
        simp only [Publisher.publishBatch, hne2, Bool.false_eq_true, if_false, List.mem_append] at hmem
        rcases hmem with hmem | hmem
        · exact (not_hook_mem_xadds defaultStream entries i).1 hmem
        · rcases (mem_batchHooks _ rows 0).mp hmem with ⟨k, row1, hget1, hx⟩
          rcases (entryHook_eq_failed_iff (0 + k) i row1).mp hx.symm with ⟨hk, hsome1⟩
          have hk2 : k = i := by omega
          subst hk2
          rw [hget] at hget1
          cases hget1
          rw [hnone] at hsome1
          cases hsome1

/-- Witness for c5_publish_batch_report: a two-entry batch whose second
append fails inside a successful pipeline yields ok/failed per entry,
the PUBLISHED hook at index 0 and the FAILED hook at index 1. -/
theorem c5_publish_batch_report_witness :
    (Publisher.publishBatch "main" "g" "t" (Except.ok (some c5rows)) c5entries).2
      = Except.ok [{ ok := true, id := some "1-1", error := none },
                   { ok := false, id := none, error := some "boom" }]
    ∧ PubAction.hookPublished 0 "1-1"
        ∈ (Publisher.publishBatch "main" "g" "t" (Except.ok (some c5rows)) c5entries).1
    ∧ PubAction.hookFailedPub 1
        ∈ (Publisher.publishBatch "main" "g" "t" (Except.ok (some c5rows)) c5entries).1 := by
  have h := c5_publish_batch_report "main" "g" "t" (Except.ok (some c5rows)) c5entries
    (by decide)
  have hb := h.2 c5rows rfl rfl
  refine ⟨?_, ?_, ?_⟩
  · rw [hb.1]
    rfl
  · have hp := (hb.2.2 0 ((none : Option String), some "1-1") rfl).2 rfl
    simpa using hp.1
  · have hf := (hb.2.2 1 (some "boom", (none : Option String)) rfl).1 rfl
    exact hf.1

/-- Claim C9 as stated is false on the code: the jitter offset
+30_000 ms is never attainable, because the draw
(Math.floor(r * 60) - 30) * 1000 is at most 29_000 for every
r in [0, 1). -/
theorem c9_trimmer_jitter_counterexample :
    ¬ ∃ r : ℚ, 0 ≤ r ∧ r < 1
      ∧ Trimmer.getRandomInterval 172800000 r = 172800000 + 30000 := by
  rintro ⟨r, h0, h1, heq⟩
  have h60 : r * 60 < 60 := by nlinarith
  have hf : ⌊r * 60⌋ < 60 := Int.floor_lt.mpr (by push_cast; linarith)
  unfold Trimmer.getRandomInterval at heq
  omega

/-- Claim C9 (corrected): treating the random draw r in [0, 1) as an
input, the initial trim delay always lies in [1 s, 10 s], and each
periodic trim interval equals intervalTime plus the offset
(floor(r * 60) - 30) * 1000 ms, which always lies in
[-30_000, +29_000]; every multiple of 1000 in that range is attainable
(witnessed by r = k / 60), so no interval falls outside
intervalTime plus or minus 30 s, but the offset +30_000 is never drawn
and only multiples of 1000 occur. -/
theorem c9_trimmer_jitter_amended (it : Int) (r : ℚ) (h0 : 0 ≤ r) (h1 : r < 1) :
    (it - 30000 ≤ Trimmer.getRandomInterval it r
      ∧ Trimmer.getRandomInterval it r ≤ it + 29000)
    ∧ (1000 ≤ Trimmer.getInitialDelay r ∧ Trimmer.getInitialDelay r ≤ 10000)
    ∧ ∀ k : Int, 0 ≤ k → k < 60 →
        Trimmer.getRandomInterval it ((k : ℚ) / 60) = it + (k - 30) * 1000
        ∧ 0 ≤ ((k : ℚ) / 60) ∧ ((k : ℚ) / 60) < 1 := by
  refine ⟨?_, ?_, ?_⟩
  · have hnn : (0 : ℚ) ≤ r * 60 := by positivity
    have hfl : (0 : Int) ≤ ⌊r * 60⌋ := Int.floor_nonneg.mpr hnn
    have h60 : r * 60 < 60 := by nlinarith
    have hfu : ⌊r * 60⌋ < 60 := Int.floor_lt.mpr (by push_cast; linarith)
    unfold Trimmer.getRandomInterval
    omega
  · have hlo : (1 : ℚ) ≤ r * 10 + 1 := by nlinarith
    have hhi : r * 10 + 1 < 11 := by nlinarith
    have hfl : (1 : Int) ≤ ⌊r * 10 + 1⌋ := Int.le_floor.mpr (by push_cast; linarith)
    have hfu : ⌊r * 10 + 1⌋ < 11 := Int.floor_lt.mpr (by push_cast; linarith)
    unfold Trimmer.getInitialDelay
    omega
  · intro k hk0 hk60
    have hmul : ((k : ℚ) / 60) * 60 = (k : ℚ) := by
      field_simp
    refine ⟨?_, ?_, ?_⟩
    · unfold Trimmer.getRandomInterval
      rw [hmul, Int.floor_intCast]
    · positivity
    · rw [div_lt_one (by norm_num)]
      exact_mod_cast hk60

/-- Witness for c9_trimmer_jitter_amended: with r = 30/60 the periodic
interval equals intervalTime exactly, with r = 59/60 it equals
intervalTime + 29_000 (the largest attainable offset), and the initial
delay drawn at r = 30/60 lies within [1 s, 10 s]. -/
theorem c9_trimmer_jitter_amended_witness :
    Trimmer.getRandomInterval 172800000 ((30 : ℚ) / 60) = 172800000
    ∧ Trimmer.getRandomInterval 172800000 ((59 : ℚ) / 60) = 172800000 + 29000
    ∧ 1000 ≤ Trimmer.getInitialDelay ((30 : ℚ) / 60)
    ∧ Trimmer.getInitialDelay ((30 : ℚ) / 60) ≤ 10000 := by
  have h := c9_trimmer_jitter_amended 172800000 ((30 : ℚ) / 60) (by norm_num) (by norm_num)
  have h30 := (h.2.2 30 (by norm_num) (by norm_num)).1
  have h59 := (h.2.2 59 (by norm_num) (by norm_num)).1
  refine ⟨?_, ?_, h.2.1.1, h.2.1.2⟩
  · rw [show ((30 : ℚ) / 60) = (((30 : ℤ) : ℚ) / 60) by norm_num, h30]
    norm_num
  · rw [show ((59 : ℚ) / 60) = (((59 : ℤ) : ℚ) / 60) by norm_num, h59]
    norm_num

end Rivulex
